import Mathlib

/-!
Verification of the VicEmergency incident-monitoring repository.

This file shallowly embeds the core of the repository in Lean 4:

* `src/src/geocoder.py` — the postcode database (`PostcodeDatabase`) with
  suburb lookup and nearest-postcode scan, and the multi-strategy resolver
  `PostcodeGeocoder.resolve_postcode`;
* `src/src/status_tracker.py` — `StatusTracker.detect_change` and
  `StatusTracker.update_state`;
* `src/src/history_tracker.py` — `HistoryTracker.save_snapshot`,
  `HistoryTracker.compare_snapshots` and `HistoryTracker._determine_change`;
* `src/app.py` — `get_status_order`, `get_level_order` and the
  combined-severity change classification used by `compare_times`.

Python dictionaries are modelled as association lists (`alookup`, `upsert`),
Python floats as rationals `ℚ` (all comparisons the claims depend on have
margins far larger than double-precision rounding error), and the one
genuinely transcendental computation (`_haversine`, which uses `math.sin`,
`math.cos`, `math.asin`, `math.sqrt`) as a real-valued function.  External
library behaviours (the Nominatim reverse geocoder, Python's `float()` and
`datetime.fromisoformat` parsers, and the two regex-based suburb extraction
helpers `_extract_suburb` / `_extract_location_parts`) are taken as
parameters of the embedded functions, so every theorem quantifies over all
of their possible behaviours.
-/

namespace VicEmergency

/-! ## Association lists (model of Python `dict`)

`alookup` scans entries in order and returns the first value bound to the
key; `upsert` models Python dictionary assignment `d[k] = v` (replace in
place when the key exists, append otherwise). -/

def alookup {κ α : Type} [DecidableEq κ] (k : κ) : List (κ × α) → Option α
  | [] => none
  | (k', v) :: rest => if k' = k then some v else alookup k rest

/-- Replace the value stored at key `k` (in place, keeping positions). -/
def replaceKey {κ α : Type} [DecidableEq κ] (k : κ) (v : α) :
    List (κ × α) → List (κ × α)
  | [] => []
  | (a, b) :: rest =>
    if a = k then (k, v) :: replaceKey k v rest
    else (a, b) :: replaceKey k v rest

def upsert {κ α : Type} [DecidableEq κ] (l : List (κ × α)) (k : κ) (v : α) :
    List (κ × α) :=
  if k ∈ l.map Prod.fst then replaceKey k v l else l ++ [(k, v)]

theorem alookup_nil {κ α : Type} [DecidableEq κ] (k : κ) :
    alookup (α := α) k [] = none := rfl

theorem alookup_eq_none_iff {κ α : Type} [DecidableEq κ] (k : κ)
    (l : List (κ × α)) : alookup k l = none ↔ k ∉ l.map Prod.fst := by
  induction l with
  | nil => simp [alookup]
  | cons p rest ih =>
    obtain ⟨k', v⟩ := p
    by_cases h : k' = k
    · subst h
      simp [alookup]
    · simp [alookup, h, ih, Ne.symm h]

theorem alookup_isSome_of_mem_keys {κ α : Type} [DecidableEq κ] {k : κ}
    {l : List (κ × α)} (h : k ∈ l.map Prod.fst) :
    ∃ v, alookup k l = some v := by
  rcases hv : alookup k l with _ | v
  · exact absurd ((alookup_eq_none_iff k l).1 hv) (by simpa using h)
  · exact ⟨v, rfl⟩

theorem mem_of_alookup_eq_some {κ α : Type} [DecidableEq κ] {k : κ}
    {l : List (κ × α)} {v : α} (h : alookup k l = some v) : (k, v) ∈ l := by
  induction l with
  | nil => simp [alookup] at h
  | cons p rest ih =>
    obtain ⟨k', w⟩ := p
    by_cases hk : k' = k
    · subst hk
      simp [alookup] at h
      simp [h]
    · simp [alookup, hk] at h
      exact List.mem_cons_of_mem _ (ih h)

theorem alookup_append {κ α : Type} [DecidableEq κ] (k : κ)
    (l₁ l₂ : List (κ × α)) :
    alookup k (l₁ ++ l₂) = (alookup k l₁).orElse (fun _ => alookup k l₂) := by
  induction l₁ with
  | nil => simp [alookup]
  | cons p rest ih =>
    obtain ⟨k', v⟩ := p
    by_cases h : k' = k <;> simp [alookup, h, ih]

theorem alookup_replaceKey_self {κ α : Type} [DecidableEq κ]
    {l : List (κ × α)} (k : κ) (v : α) (hmem : k ∈ l.map Prod.fst) :
    alookup k (replaceKey k v l) = some v := by
  induction l with
  | nil => simp at hmem
  | cons p rest ih =>
    obtain ⟨a, b⟩ := p
    by_cases ha : a = k
    · simp [replaceKey, ha, alookup]
    · have hrest : k ∈ rest.map Prod.fst := by
        rw [List.map_cons] at hmem
        rcases List.mem_cons.mp hmem with h | h
        · exact absurd h (Ne.symm ha)
        · exact h
      simp [replaceKey, ha, alookup, ih hrest]

theorem alookup_replaceKey_other {κ α : Type} [DecidableEq κ]
    (l : List (κ × α)) (k k' : κ) (v : α) (hne : k' ≠ k) :
    alookup k' (replaceKey k v l) = alookup k' l := by
  induction l with
  | nil => rfl
  | cons p rest ih =>
    obtain ⟨a, b⟩ := p
    by_cases ha : a = k
    · subst ha
      simp [replaceKey, alookup, Ne.symm hne, ih]
    · by_cases hab : a = k'
      · subst hab
        simp [replaceKey, ha, alookup, ih]
      · simp [replaceKey, ha, alookup, hab, ih]

theorem keys_replaceKey {κ α : Type} [DecidableEq κ] (l : List (κ × α))
    (k : κ) (v : α) :
    (replaceKey k v l).map Prod.fst = l.map Prod.fst := by
  induction l with
  | nil => rfl
  | cons p rest ih =>
    obtain ⟨a, b⟩ := p
    by_cases ha : a = k <;> simp [replaceKey, ha, ih]

theorem alookup_upsert_self {κ α : Type} [DecidableEq κ] (l : List (κ × α))
    (k : κ) (v : α) : alookup k (upsert l k v) = some v := by
  unfold upsert
  by_cases hmem : k ∈ l.map Prod.fst
  · simp only [hmem, if_true]
    exact alookup_replaceKey_self k v hmem
  · simp only [hmem, if_false]
    rw [alookup_append]
    rw [(alookup_eq_none_iff k l).2 hmem]
    simp [alookup]

theorem alookup_upsert_other {κ α : Type} [DecidableEq κ] (l : List (κ × α))
    (k k' : κ) (v : α) (hne : k' ≠ k) :
    alookup k' (upsert l k v) = alookup k' l := by
  unfold upsert
  by_cases hmem : k ∈ l.map Prod.fst
  · simp only [hmem, if_true]
    exact alookup_replaceKey_other l k k' v hne
  · simp only [hmem, if_false]
    rw [alookup_append]
    rcases h1 : alookup k' l with _ | w
    · simp [alookup, Ne.symm hne]
    · simp

theorem nodup_keys_upsert {κ α : Type} [DecidableEq κ] {l : List (κ × α)}
    (k : κ) (v : α) (h : (l.map Prod.fst).Nodup) :
    ((upsert l k v).map Prod.fst).Nodup := by
  unfold upsert
  by_cases hmem : k ∈ l.map Prod.fst
  · simp only [hmem, if_true]
    rw [keys_replaceKey l k v]
    exact h
  · simp only [hmem, if_false]
    simp [List.nodup_append, h, hmem]

/-! ## String helpers

Python's `str.upper()` and `str.strip()` modelled on the character list of
a string (Lean's built-in `String.toUpper`/`String.trim` are semantically
identical on the ASCII data these claims involve, but their position-based
recursion does not reduce in the kernel, so witnesses could not be checked
by `decide`). -/

def pyUpper (s : String) : String := String.mk (s.data.map Char.toUpper)

def pyStrip (s : String) : String :=
  String.mk
    (((s.data.dropWhile Char.isWhitespace).reverse.dropWhile
      Char.isWhitespace).reverse)

/-! ## Data model (`src/src/models.py`) -/

/-- `ChangeType` enum from `models.py`.  `UPGRADE` is the escalation case,
`DOWNGRADE` the de-escalation case, `NONE` the unchanged case. -/
inductive ChangeType where
  | NEW
  | UPGRADE
  | DOWNGRADE
  | RESOLVED
  | NONE
  deriving DecidableEq, Repr

/-- `Incident` dataclass from `models.py` (floats modelled as `ℚ`). -/
structure Incident where
  incident_no : Int
  incident_type : String
  category1 : String
  category2 : String
  name : String
  location : String
  municipality : String
  latitude : ℚ
  longitude : ℚ
  incident_status : String
  origin_status : String
  incident_size : String
  last_update : String
  resource_count : Int
  territory : String
  deriving DecidableEq, Repr

/-- The per-incident dictionary stored by `StatusTracker.update_state` in
`_previous_states`.  A missing `last_seen` key behaves exactly like the
empty string throughout `status_tracker.py` (it is always read with
`state.get("last_seen", "")`), so both are modelled as `""`. -/
structure TrackedState where
  origin_status : String
  incident_status : String
  category2 : String
  location : String
  last_update : String
  last_seen : String
  deriving DecidableEq, Repr

/-! ## Status tracker (`src/src/status_tracker.py`) -/

/-- `StatusTracker._get_status_priority`: value of the `StatusPriority`
enum at `status.upper()`, defaulting to `5` for unknown statuses.  In the
Python enum `RESPONDING = 1` is an alias of `GOING = 1`, and
`StatusPriority[name]` resolves aliases, so both names map to `1`. -/
def get_status_priority (status : String) : Nat :=
  match pyUpper status with
  | "GOING" => 1
  | "RESPONDING" => 1
  | "CONTAINED" => 2
  | "CONTROLLED" => 3
  | "SAFE" => 4
  | _ => 5

/-- `StatusTracker.detect_change`.  `states` is the `_previous_states`
dictionary. -/
def detect_change (states : List (Int × TrackedState)) (incident_no : Int)
    (current_status : String) : ChangeType × Option String :=
  match alookup incident_no states with
  | none => (ChangeType.NEW, none)
  | some previous =>
    let previous_status := previous.origin_status
    if pyUpper current_status = "SAFE" ∧ pyUpper previous_status ≠ "SAFE" then
      (ChangeType.RESOLVED, some previous_status)
    else if get_status_priority current_status
        < get_status_priority previous_status then
      (ChangeType.UPGRADE, some previous_status)
    else if get_status_priority previous_status
        < get_status_priority current_status then
      (ChangeType.DOWNGRADE, some previous_status)
    else
      (ChangeType.NONE, some previous_status)

/-- The state record written for an incident by `update_state`;
`now_iso` is `datetime.now().isoformat()`. -/
def mkTrackedState (inc : Incident) (now_iso : String) : TrackedState :=
  { origin_status := inc.origin_status
    incident_status := inc.incident_status
    category2 := inc.category2
    location := inc.location
    last_update := inc.last_update
    last_seen := now_iso }

/-- The stale test from `update_state`: an entry absent from the batch is
deleted when its `last_seen` is non-empty and is either unparseable
(`datetime.fromisoformat` raises `ValueError`, modelled by
`parse_iso _ = none`) or parses to a timestamp strictly below the
threshold `now - 24*60*60`. -/
def staleRemove (parse_iso : String → Option ℚ) (current_nos : List Int)
    (threshold : ℚ) (entry : Int × TrackedState) : Bool :=
  decide (entry.1 ∉ current_nos) &&
    decide (entry.2.last_seen ≠ "") &&
    (match parse_iso entry.2.last_seen with
     | some t => decide (t < threshold)
     | none => true)

/-- `StatusTracker.update_state`.  Timestamps are epoch seconds as `ℚ`;
`parse_iso` models `datetime.fromisoformat(s).timestamp()` (returning
`none` where Python raises `ValueError`); `now` models
`datetime.now().timestamp()` and `now_iso` models
`datetime.now().isoformat()`. -/
def update_state (parse_iso : String → Option ℚ) (now : ℚ) (now_iso : String)
    (states : List (Int × TrackedState)) (incidents : List Incident) :
    List (Int × TrackedState) :=
  let states1 := incidents.foldl
    (fun st inc => upsert st inc.incident_no (mkTrackedState inc now_iso))
    states
  let current_nos := incidents.map (fun inc => inc.incident_no)
  let threshold := now - 24 * 60 * 60
  states1.filter (fun entry => !(staleRemove parse_iso current_nos threshold entry))

theorem alookup_fold_upsert_not_mem
    (now_iso : String) (incidents : List Incident)
    (states : List (Int × TrackedState)) (k : Int)
    (hk : k ∉ incidents.map (fun inc => inc.incident_no)) :
    alookup k (incidents.foldl
      (fun st inc => upsert st inc.incident_no (mkTrackedState inc now_iso))
      states) = alookup k states := by
  induction incidents generalizing states with
  | nil => rfl
  | cons inc rest ih =>
    have hk1 : k ≠ inc.incident_no := by
      intro h
      exact hk (by simp [h])
    have hk2 : k ∉ rest.map (fun inc => inc.incident_no) := by
      intro h
      exact hk (by simp [h])
    rw [List.foldl_cons, ih _ hk2,
      alookup_upsert_other _ _ _ _ hk1]

theorem alookup_fold_upsert_isSome
    (now_iso : String) (incidents : List Incident)
    (states : List (Int × TrackedState)) (k : Int)
    (hk : k ∈ incidents.map (fun inc => inc.incident_no) ∨
      (∃ v, alookup k states = some v)) :
    ∃ v, alookup k (incidents.foldl
      (fun st inc => upsert st inc.incident_no (mkTrackedState inc now_iso))
      states) = some v := by
  induction incidents generalizing states with
  | nil =>
    rcases hk with h | h
    · simp at h
    · exact h
  | cons inc rest ih =>
    rw [List.foldl_cons]
    by_cases hmem : k ∈ rest.map (fun inc => inc.incident_no)
    · exact ih _ (Or.inl hmem)
    · apply ih _
      right
      rcases hk with h | h
      · rcases (by simpa using h :
            k = inc.incident_no ∨ ∃ a ∈ rest, a.incident_no = k) with h1 | ⟨a, ha, ha2⟩
        · subst h1
          exact ⟨_, alookup_upsert_self _ _ _⟩
        · exact absurd (List.mem_map.mpr ⟨a, ha, ha2⟩) hmem
      · by_cases hke : k = inc.incident_no
        · subst hke
          exact ⟨_, alookup_upsert_self _ _ _⟩
        · rcases h with ⟨v, hv⟩
          exact ⟨v, by rw [alookup_upsert_other _ _ _ _ hke]; exact hv⟩

theorem nodup_keys_fold_upsert (now_iso : String) (incidents : List Incident)
    (states : List (Int × TrackedState))
    (h : (states.map Prod.fst).Nodup) :
    ((incidents.foldl
      (fun st inc => upsert st inc.incident_no (mkTrackedState inc now_iso))
      states).map Prod.fst).Nodup := by
  induction incidents generalizing states with
  | nil => exact h
  | cons inc rest ih =>
    rw [List.foldl_cons]
    exact ih _ (nodup_keys_upsert _ _ h)

theorem alookup_filter {κ α : Type} [DecidableEq κ] (q : κ × α → Bool)
    (l : List (κ × α)) (k : κ) (v : α)
    (hnodup : (l.map Prod.fst).Nodup) (hv : alookup k l = some v) :
    alookup k (l.filter q) = if q (k, v) then some v else none := by
  induction l with
  | nil => simp [alookup] at hv
  | cons p rest ih =>
    obtain ⟨a, b⟩ := p
    rw [List.map_cons, List.nodup_cons] at hnodup
    by_cases ha : a = k
    · subst ha
      obtain rfl : b = v := by simpa [alookup] using hv
      have hnone : alookup a (rest.filter q) = none := by
        rw [alookup_eq_none_iff]
        intro hmem
        apply hnodup.1
        rcases List.mem_map.mp hmem with ⟨⟨c, d⟩, hcd, hc⟩
        exact List.mem_map.mpr ⟨(c, d), List.mem_of_mem_filter hcd, hc⟩
      by_cases hq : q (a, b)
      · simp [List.filter_cons, hq, alookup]
      · simp [List.filter_cons, hq, hnone]
    · have hv' : alookup k rest = some v := by
        simpa [alookup, ha] using hv
      have := ih hnodup.2 hv'
      by_cases hq : q (a, b) <;> simp [List.filter_cons, hq, alookup, ha, this]

/-- C3: `detect_change` returns `(NEW, none)` when no prior state exists for
the identity; `(RESOLVED, previous)` when the current status
case-insensitively equals `"Safe"` and the previous status did not;
otherwise `UPGRADE` (escalation) when the current status's priority (lower =
more severe, unranked statuses defaulting to the low-severity rank `5`) is
strictly lower than the previous status's priority, `DOWNGRADE`
(de-escalation) when strictly higher, and `NONE` (unchanged) when equal. -/
theorem detect_change_spec (states : List (Int × TrackedState))
    (incident_no : Int) (current_status : String) :
    (alookup incident_no states = none →
      detect_change states incident_no current_status = (ChangeType.NEW, none)) ∧
    (∀ p, alookup incident_no states = some p →
      ((pyUpper current_status = "SAFE" ∧ pyUpper p.origin_status ≠ "SAFE") →
        detect_change states incident_no current_status
          = (ChangeType.RESOLVED, some p.origin_status)) ∧
      (¬(pyUpper current_status = "SAFE" ∧ pyUpper p.origin_status ≠ "SAFE") →
        (get_status_priority current_status < get_status_priority p.origin_status →
          detect_change states incident_no current_status
            = (ChangeType.UPGRADE, some p.origin_status)) ∧
        (get_status_priority p.origin_status < get_status_priority current_status →
          detect_change states incident_no current_status
            = (ChangeType.DOWNGRADE, some p.origin_status)) ∧
        (get_status_priority current_status = get_status_priority p.origin_status →
          detect_change states incident_no current_status
            = (ChangeType.NONE, some p.origin_status)))) := by
  constructor
  · intro h
    simp [detect_change, h]
  · intro p hp
    constructor
    · intro hsafe
      simp [detect_change, hp, hsafe]
    · intro hnot
      refine ⟨fun hlt => ?_, fun hgt => ?_, fun heq => ?_⟩
      · simp [detect_change, hp, hnot, hlt]
      · have : ¬ get_status_priority current_status
            < get_status_priority p.origin_status := by omega
        simp [detect_change, hp, hnot, this, hgt]
      · have h1 : ¬ get_status_priority current_status
            < get_status_priority p.origin_status := by omega
        have h2 : ¬ get_status_priority p.origin_status
            < get_status_priority current_status := by omega
        simp [detect_change, hp, hnot, h1, h2]

/-- Sample tracked state for the `detect_change` witness. -/
def c3State : TrackedState :=
  { origin_status := "Going", incident_status := "", category2 := ""
    location := "", last_update := "", last_seen := "" }

/-- C3 witness: with prior status `"Going"` (priority 1), current status
`"Contained"` (priority 2) is classified `DOWNGRADE` (de-escalation). -/
theorem detect_change_spec_witness :
    alookup (101 : Int) [((101 : Int), c3State)] = some c3State ∧
    ¬(pyUpper "Contained" = "SAFE" ∧ pyUpper c3State.origin_status ≠ "SAFE") ∧
    get_status_priority c3State.origin_status < get_status_priority "Contained" ∧
    detect_change [((101 : Int), c3State)] 101 "Contained"
      = (ChangeType.DOWNGRADE, some "Going") :=
  ⟨rfl, by decide, by decide,
    (((detect_change_spec [((101 : Int), c3State)] 101 "Contained").2
      c3State rfl).2 (by decide)).2.1 (by decide)⟩

/-- C9: `update_state` never deletes an entity present in the current batch,
retains an absent entity whose (parseable) last-seen time is within the
24-hour retention window, and purges an absent entity once its last-seen
time is strictly older than 24 hours before the current time. -/
theorem update_state_retention (parse_iso : String → Option ℚ) (now : ℚ)
    (now_iso : String) (states : List (Int × TrackedState))
    (incidents : List Incident) (hnodup : (states.map Prod.fst).Nodup) :
    (∀ inc ∈ incidents, ∃ st,
      alookup inc.incident_no
        (update_state parse_iso now now_iso states incidents) = some st) ∧
    (∀ k st t, alookup k states = some st →
      k ∉ incidents.map (fun inc => inc.incident_no) →
      st.last_seen ≠ "" →
      parse_iso st.last_seen = some t →
      (now - 24 * 60 * 60 ≤ t →
        alookup k (update_state parse_iso now now_iso states incidents)
          = some st) ∧
      (t < now - 24 * 60 * 60 →
        alookup k (update_state parse_iso now now_iso states incidents)
          = none)) := by
  have hnodup1 := nodup_keys_fold_upsert now_iso incidents states hnodup
  constructor
  · intro inc hinc
    obtain ⟨v, hv⟩ := alookup_fold_upsert_isSome now_iso incidents states
      inc.incident_no (Or.inl (List.mem_map.mpr ⟨inc, hinc, rfl⟩))
    refine ⟨v, ?_⟩
    unfold update_state
    rw [alookup_filter _ _ _ _ hnodup1 hv]
    have hmem : inc.incident_no ∈ incidents.map (fun i => i.incident_no) :=
      List.mem_map.mpr ⟨inc, hinc, rfl⟩
    simp [staleRemove, hmem]
  · intro k st t hst hnot hne hparse
    have hval : alookup k (incidents.foldl
        (fun st inc => upsert st inc.incident_no (mkTrackedState inc now_iso))
        states) = some st := by
      rw [alookup_fold_upsert_not_mem now_iso incidents states k hnot]
      exact hst
    constructor
    · intro hrecent
      unfold update_state
      rw [alookup_filter _ _ _ _ hnodup1 hval]
      have : ¬ (t < now - 24 * 60 * 60) := by linarith
      simp [staleRemove, hnot, hne, hparse, this]
    · intro hstale
      unfold update_state
      rw [alookup_filter _ _ _ _ hnodup1 hval]
      simp [staleRemove, hnot, hne, hparse, hstale]

/-- Sample state with a parseable last-seen timestamp (epoch second 100). -/
def c9State : TrackedState :=
  { origin_status := "Going", incident_status := "", category2 := ""
    location := "", last_update := "", last_seen := "100" }

/-- Digit-string accumulator for the witness-level parsers. -/
def decDigitsAux : List Char → Nat → Option Nat
  | [], acc => some acc
  | c :: rest, acc =>
    if c.isDigit then decDigitsAux rest (acc * 10 + (c.toNat - 48)) else none

/-- Integer-string parser used by the witnesses (a concrete instance of the
parser parameters, standing in for Python's `float()` /
`datetime.fromisoformat`): accepts optionally-negated digit strings. -/
def intParseIso (s : String) : Option ℚ :=
  match s.data with
  | [] => none
  | '-' :: rest =>
    if rest = [] then none else (decDigitsAux rest 0).map (fun n => -(n : ℚ))
  | cs => (decDigitsAux cs 0).map (fun n => (n : ℚ))

/-- C9 witness: entity 7 with last-seen time 100 is purged at current time
100000 (more than 24 hours = 86400 seconds later) when absent from the
batch. -/
theorem update_state_retention_witness :
    ([((7 : Int), c9State)].map Prod.fst).Nodup ∧
    alookup (7 : Int) [((7 : Int), c9State)] = some c9State ∧
    (7 : Int) ∉ ([] : List Incident).map (fun inc => inc.incident_no) ∧
    c9State.last_seen ≠ "" ∧
    intParseIso c9State.last_seen = some 100 ∧
    (100 : ℚ) < 100000 - 24 * 60 * 60 ∧
    alookup (7 : Int)
      (update_state intParseIso 100000 "now" [((7 : Int), c9State)] []) = none :=
  ⟨by decide, rfl, by decide, by decide, rfl, by norm_num,
    ((update_state_retention intParseIso 100000 "now" [((7 : Int), c9State)]
      [] (by decide)).2 7 c9State 100 rfl (by decide) (by decide) rfl).2
      (by norm_num)⟩

/-- C10: in `update_state`, an entity absent from the current batch whose
stored `last_seen` is non-empty but unparseable is purged immediately
(regardless of age), while an entity whose stored `last_seen` is missing or
the empty string is never purged (missing and `""` coincide in the model
because the code always reads `state.get("last_seen", "")`). -/
theorem update_state_unparseable_or_blank (parse_iso : String → Option ℚ)
    (now : ℚ) (now_iso : String) (states : List (Int × TrackedState))
    (incidents : List Incident) (hnodup : (states.map Prod.fst).Nodup) :
    ∀ k st, alookup k states = some st →
      k ∉ incidents.map (fun inc => inc.incident_no) →
      (st.last_seen ≠ "" → parse_iso st.last_seen = none →
        alookup k (update_state parse_iso now now_iso states incidents)
          = none) ∧
      (st.last_seen = "" →
        alookup k (update_state parse_iso now now_iso states incidents)
          = some st) := by
  intro k st hst hnot
  have hnodup1 := nodup_keys_fold_upsert now_iso incidents states hnodup
  have hval : alookup k (incidents.foldl
      (fun st inc => upsert st inc.incident_no (mkTrackedState inc now_iso))
      states) = some st := by
    rw [alookup_fold_upsert_not_mem now_iso incidents states k hnot]
    exact hst
  constructor
  · intro hne hparse
    unfold update_state
    rw [alookup_filter _ _ _ _ hnodup1 hval]
    simp [staleRemove, hnot, hne, hparse]
  · intro hblank
    unfold update_state
    rw [alookup_filter _ _ _ _ hnodup1 hval]
    simp [staleRemove, hblank]

/-- Sample state with an unparseable last-seen timestamp. -/
def c10BadState : TrackedState :=
  { origin_status := "Going", incident_status := "", category2 := ""
    location := "", last_update := "", last_seen := "not-a-date" }

/-- Sample state with a blank last-seen timestamp. -/
def c10BlankState : TrackedState :=
  { origin_status := "Going", incident_status := "", category2 := ""
    location := "", last_update := "", last_seen := "" }

/-- C10 witness: entity 8 with unparseable last-seen is purged immediately;
entity 7 with blank last-seen is retained, both absent from the batch. -/
theorem update_state_unparseable_or_blank_witness :
    intParseIso c10BadState.last_seen = none ∧
    alookup (8 : Int)
      (update_state intParseIso 0 "now"
        [((7 : Int), c10BlankState), ((8 : Int), c10BadState)] []) = none ∧
    alookup (7 : Int)
      (update_state intParseIso 0 "now"
        [((7 : Int), c10BlankState), ((8 : Int), c10BadState)] [])
      = some c10BlankState :=
  ⟨rfl,
    ((update_state_unparseable_or_blank intParseIso 0 "now"
      [((7 : Int), c10BlankState), ((8 : Int), c10BadState)] [] (by decide)
      8 c10BadState rfl (by decide)).1 (by decide) rfl),
    ((update_state_unparseable_or_blank intParseIso 0 "now"
      [((7 : Int), c10BlankState), ((8 : Int), c10BadState)] [] (by decide)
      7 c10BlankState rfl (by decide)).2 rfl)⟩

/-! ## Postcode database (`src/src/geocoder.py`, class `PostcodeDatabase`)

Reference rows are lists of CSV fields.  `parse_float` models Python's
`float()` (returning `none` where it raises `ValueError`); it is a
parameter because the claims hold for every parser behaviour. -/

structure PostcodeDatabase where
  suburb_to_postcode : List (String × String)
  postcode_coords : List (String × ℚ × ℚ)
  all_coords : List (String × ℚ × ℚ)
  deriving DecidableEq

/-- One iteration of the row loop in `PostcodeDatabase._load_database`:
rows with fewer than 4 fields or non-numeric coordinates are skipped; the
suburb key is the upper-cased stripped locality; suburb and coordinate maps
keep the first occurrence; `all_coords` records every valid row. -/
def loadRow (parse_float : String → Option ℚ) (db : PostcodeDatabase) :
    List String → PostcodeDatabase
  | postcode :: locality :: lon_str :: lat_str :: _ =>
    match parse_float lat_str, parse_float lon_str with
    | some lat, some lon =>
      let locality_upper := pyUpper (pyStrip locality)
      { suburb_to_postcode :=
          if locality_upper ∈ db.suburb_to_postcode.map Prod.fst then
            db.suburb_to_postcode
          else db.suburb_to_postcode ++ [(locality_upper, postcode)]
        postcode_coords :=
          if postcode ∈ db.postcode_coords.map Prod.fst then db.postcode_coords
          else db.postcode_coords ++ [(postcode, lat, lon)]
        all_coords := db.all_coords ++ [(postcode, lat, lon)] }
    | _, _ => db
  | [] => db
  | [_] => db
  | [_, _] => db
  | [_, _, _] => db

/-- `PostcodeDatabase._load_database` over an in-memory list of CSV rows. -/
def load_database (parse_float : String → Option ℚ)
    (rows : List (List String)) : PostcodeDatabase :=
  rows.foldl (loadRow parse_float) ⟨[], [], []⟩

/-- `PostcodeDatabase.get_postcode_by_suburb`: `None` for a falsy (empty)
argument, otherwise dictionary lookup of the upper-cased stripped name. -/
def get_postcode_by_suburb (db : PostcodeDatabase) (suburb : String) :
    Option String :=
  if suburb = "" then none
  else alookup (pyUpper (pyStrip suburb)) db.suburb_to_postcode

/-- `PostcodeDatabase._haversine` (Earth radius 6371 km), over the reals. -/
noncomputable def haversine (lat1 lon1 lat2 lon2 : ℝ) : ℝ :=
  let R : ℝ := 6371
  let lat1_rad := lat1 * Real.pi / 180
  let lat2_rad := lat2 * Real.pi / 180
  let dlat := (lat2 - lat1) * Real.pi / 180
  let dlon := (lon2 - lon1) * Real.pi / 180
  let a := Real.sin (dlat / 2) ^ 2
    + Real.cos lat1_rad * Real.cos lat2_rad * Real.sin (dlon / 2) ^ 2
  let c := 2 * Real.arcsin (Real.sqrt a)
  R * c

/-- The scan loop of `get_nearest_postcode`: the accumulator is
`none` while `min_distance` is still `float("inf")` (every finite distance
compares below it), and `some (min_distance, nearest)` afterwards; a new
point is taken only on a strictly smaller distance, so the first minimum
in data order wins.  Generic in the ordered distance type so that the loop
itself stays executable. -/
def havLoop {α β : Type} [LinearOrder α] (dist : β → α) :
    Option (α × β) → List β → Option (α × β)
  | acc, [] => acc
  | none, x :: xs => havLoop dist (some (dist x, x)) xs
  | some (m, b), x :: xs =>
    if dist x < m then havLoop dist (some (dist x, x)) xs
    else havLoop dist (some (m, b)) xs

/-- Result of the scan loop: the element achieving the first minimum. -/
def nearestScan {α β : Type} [LinearOrder α] (dist : β → α) (l : List β) :
    Option β :=
  (havLoop dist none l).map Prod.snd

/-- Distance from the query point to a reference entry, as used by
`get_nearest_postcode`. -/
noncomputable def havDist (lat lon : ℚ) (p : String × ℚ × ℚ) : ℝ :=
  haversine (lat : ℝ) (lon : ℝ) ((p.2.1 : ℚ) : ℝ) ((p.2.2 : ℚ) : ℝ)

/-- `PostcodeDatabase.get_nearest_postcode`: `None` when the reference list
is empty or either coordinate equals 0; otherwise the linear Haversine
scan. -/
noncomputable def get_nearest_postcode (coords : List (String × ℚ × ℚ))
    (lat lon : ℚ) : Option String :=
  if coords = [] ∨ lat = 0 ∨ lon = 0 then none
  else (nearestScan (havDist lat lon) coords).map (fun p => p.1)

theorem havLoop_spec {α β : Type} [LinearOrder α] (dist : β → α)
    (l : List β) : ∀ (m : α) (b : β), ∃ m' b',
      havLoop dist (some (m, b)) l = some (m', b') ∧ m' ≤ m ∧
      (∀ y ∈ l, m' ≤ dist y) ∧
      ((m' = m ∧ b' = b) ∨
        ∃ i : Fin l.length, b' = l.get i ∧ m' = dist (l.get i) ∧ m' < m ∧
          ∀ j : Fin l.length, j < i → m' < dist (l.get j)) := by
  induction l with
  | nil =>
    intro m b
    exact ⟨m, b, rfl, le_refl m, by simp, Or.inl ⟨rfl, rfl⟩⟩
  | cons x xs ih =>
    intro m b
    by_cases hd : dist x < m
    · have hstep : havLoop dist (some (m, b)) (x :: xs)
          = havLoop dist (some (dist x, x)) xs := by
        simp [havLoop, hd]
      obtain ⟨m', b', heq, hle, hall, hcase⟩ := ih (dist x) x
      refine ⟨m', b', hstep.trans heq,
        le_of_lt (lt_of_le_of_lt hle hd), ?_, ?_⟩
      · intro y hy
        rcases List.mem_cons.mp hy with rfl | hy'
        · exact hle
        · exact hall y hy'
      · rcases hcase with ⟨hm, hb⟩ | ⟨i, hb, hm, hlt, hstrict⟩
        · right
          refine ⟨⟨0, by simp⟩, hb, hm, by rw [hm]; exact hd, ?_⟩
          intro j hj
          exact absurd hj (by simp [Fin.lt_def])
        · right
          refine ⟨i.succ, hb, hm, lt_trans hlt hd, ?_⟩
          intro j
          induction j using Fin.cases with
          | zero =>
            intro _
            exact hlt
          | succ k =>
            intro hj
            have hk : k < i := Fin.succ_lt_succ_iff.mp hj
            exact hstrict k hk
    · have hm_le : m ≤ dist x := not_lt.mp hd
      have hstep : havLoop dist (some (m, b)) (x :: xs)
          = havLoop dist (some (m, b)) xs := by
        simp [havLoop, hd]
      obtain ⟨m', b', heq, hle, hall, hcase⟩ := ih m b
      refine ⟨m', b', hstep.trans heq, hle, ?_, ?_⟩
      · intro y hy
        rcases List.mem_cons.mp hy with rfl | hy'
        · exact le_trans hle hm_le
        · exact hall y hy'
      · rcases hcase with ⟨hm, hb⟩ | ⟨i, hb, hm, hlt, hstrict⟩
        · exact Or.inl ⟨hm, hb⟩
        · right
          refine ⟨i.succ, hb, hm, hlt, ?_⟩
          intro j
          induction j using Fin.cases with
          | zero =>
            intro _
            exact lt_of_lt_of_le hlt hm_le
          | succ k =>
            intro hj
            have hk : k < i := Fin.succ_lt_succ_iff.mp hj
            exact hstrict k hk

theorem nearestScan_spec {α β : Type} [LinearOrder α] (dist : β → α)
    (x : β) (xs : List β) :
    ∃ i : Fin (x :: xs).length,
      nearestScan dist (x :: xs) = some ((x :: xs).get i) ∧
      (∀ j : Fin (x :: xs).length,
        dist ((x :: xs).get i) ≤ dist ((x :: xs).get j)) ∧
      (∀ j : Fin (x :: xs).length, j < i →
        dist ((x :: xs).get i) < dist ((x :: xs).get j)) := by
  obtain ⟨m', b', heq, hle, hall, hcase⟩ := havLoop_spec dist xs (dist x) x
  have hrun : nearestScan dist (x :: xs) = some b' := by
    unfold nearestScan
    rw [show havLoop dist none (x :: xs)
      = havLoop dist (some (dist x, x)) xs from rfl, heq]
    rfl
  rcases hcase with ⟨hm, hb⟩ | ⟨i, hb, hm, hlt, hstrict⟩
  · refine ⟨⟨0, by simp⟩, by rw [hrun, hb]; rfl, ?_, ?_⟩
    · intro j
      induction j using Fin.cases with
      | zero => exact le_refl _
      | succ k =>
        show dist x ≤ dist (xs.get k)
        rw [← hm]
        exact hall (xs.get k) (List.get_mem xs k.1 k.2)
    · intro j hj
      exact absurd hj (by simp [Fin.lt_def])
  · refine ⟨i.succ, by rw [hrun, hb]; rfl, ?_, ?_⟩
    · intro j
      induction j using Fin.cases with
      | zero =>
        show dist (xs.get i) ≤ dist x
        rw [← hm]
        exact hle
      | succ k =>
        show dist (xs.get i) ≤ dist (xs.get k)
        rw [← hm]
        exact hall (xs.get k) (List.get_mem xs k.1 k.2)
    · intro j
      induction j using Fin.cases with
      | zero =>
        intro _
        show dist (xs.get i) < dist x
        rw [← hm]
        exact hlt
      | succ k =>
        intro hj
        have hk : k < i := Fin.succ_lt_succ_iff.mp hj
        show dist (xs.get i) < dist (xs.get k)
        rw [← hm]
        exact hstrict k hk

/-- Membership form of the scan result, used by the resolver invariants. -/
theorem havLoop_mem {α β : Type} [LinearOrder α] (dist : β → α)
    (l : List β) : ∀ (acc : Option (α × β)) (m' : α) (b' : β),
      havLoop dist acc l = some (m', b') →
      (∃ m₀, acc = some (m₀, b')) ∨ b' ∈ l := by
  induction l with
  | nil =>
    intro acc m' b' h
    cases acc with
    | none => simp [havLoop] at h
    | some p =>
      obtain ⟨m, b⟩ := p
      have hmb : m = m' ∧ b = b' := by simpa [havLoop] using h
      exact Or.inl ⟨m, by simp [hmb.2]⟩
  | cons x xs ih =>
    intro acc m' b' h
    cases acc with
    | none =>
      have h' : havLoop dist (some (dist x, x)) xs = some (m', b') := h
      rcases ih _ _ _ h' with ⟨m₀, hm₀⟩ | hmem
      · have : b' = x := by
          have := hm₀
          simp at this
          exact this.2.symm
        exact Or.inr (by simp [this])
      · exact Or.inr (List.mem_cons_of_mem _ hmem)
    | some p =>
      obtain ⟨m, b⟩ := p
      by_cases hd : dist x < m
      · have h' : havLoop dist (some (dist x, x)) xs = some (m', b') := by
          simpa [havLoop, hd] using h
        rcases ih _ _ _ h' with ⟨m₀, hm₀⟩ | hmem
        · have : b' = x := by
            have := hm₀
            simp at this
            exact this.2.symm
          exact Or.inr (by simp [this])
        · exact Or.inr (List.mem_cons_of_mem _ hmem)
      · have h' : havLoop dist (some (m, b)) xs = some (m', b') := by
          simpa [havLoop, hd] using h
        rcases ih _ _ _ h' with ⟨m₀, hm₀⟩ | hmem
        · have : b' = b := by
            have := hm₀
            simp at this
            exact this.2.symm
          exact Or.inl ⟨m, by simp [this]⟩
        · exact Or.inr (List.mem_cons_of_mem _ hmem)

theorem nearestScan_mem {α β : Type} [LinearOrder α] (dist : β → α)
    (l : List β) (b : β) (h : nearestScan dist l = some b) : b ∈ l := by
  unfold nearestScan at h
  rcases hrun : havLoop dist none l with _ | p
  · rw [hrun] at h
    simp at h
  · obtain ⟨m', b'⟩ := p
    rw [hrun] at h
    simp at h
    subst h
    rcases havLoop_mem dist l none m' b' hrun with ⟨m₀, hm₀⟩ | hmem
    · simp at hm₀
    · exact hmem

/-- C4 counterexample: with a non-empty index and input `(10, 0)` — which
is not the coordinate pair `(0, 0)` — `get_nearest_postcode` still returns
`none`, because the code rejects any input in which *either* coordinate is
zero (`lat == 0 or lon == 0`), not just the pair `(0, 0)`. -/
theorem get_nearest_postcode_zero_lon_counterexample :
    get_nearest_postcode [("3000", 1, 1)] 10 0 = none ∧
    ([(("3000" : String), (1 : ℚ), (1 : ℚ))] ≠ []) ∧
    ¬((10 : ℚ) = 0 ∧ (0 : ℚ) = 0) := by
  refine ⟨?_, by simp, by norm_num⟩
  unfold get_nearest_postcode
  rw [if_pos (by norm_num)]

/-- C4 (amended): `get_nearest_postcode` returns `none` exactly when the
index is empty or *either* input coordinate is 0; for every other input it
returns the postcode of the reference point with minimum haversine distance
(Earth radius 6371 km) to the input, breaking ties by the first minimum
encountered in reference-data order. -/
theorem get_nearest_postcode_characterization
    (coords : List (String × ℚ × ℚ)) (lat lon : ℚ) :
    (get_nearest_postcode coords lat lon = none ↔
      (coords = [] ∨ lat = 0 ∨ lon = 0)) ∧
    (coords ≠ [] → lat ≠ 0 → lon ≠ 0 →
      ∃ i : Fin coords.length,
        get_nearest_postcode coords lat lon = some (coords.get i).1 ∧
        (∀ j : Fin coords.length,
          havDist lat lon (coords.get i) ≤ havDist lat lon (coords.get j)) ∧
        (∀ j : Fin coords.length, j < i →
          havDist lat lon (coords.get i) < havDist lat lon (coords.get j))) := by
  constructor
  · constructor
    · intro h
      by_contra hg
      push_neg at hg
      obtain ⟨h1, h2, h3⟩ := hg
      cases coords with
      | nil => exact h1 rfl
      | cons x xs =>
        obtain ⟨i, hscan, _, _⟩ := nearestScan_spec (havDist lat lon) x xs
        unfold get_nearest_postcode at h
        rw [if_neg (by simp [h2, h3])] at h
        rw [hscan] at h
        simp at h
    · intro hg
      unfold get_nearest_postcode
      rw [if_pos hg]
  · intro h1 h2 h3
    cases coords with
    | nil => exact absurd rfl h1
    | cons x xs =>
      obtain ⟨i, hscan, hmin, hstrict⟩ := nearestScan_spec (havDist lat lon) x xs
      refine ⟨i, ?_, hmin, hstrict⟩
      unfold get_nearest_postcode
      rw [if_neg (by simp [h2, h3])]
      rw [hscan]
      rfl

/-- Two-point reference list for the `get_nearest_postcode` witness. -/
def c4Coords : List (String × ℚ × ℚ) := [("3000", 1, 1), ("3001", 2, 2)]

/-- C4 witness: at the non-degenerate input `(2, 3)` over a two-point index
the characterization applies. -/
theorem get_nearest_postcode_characterization_witness :
    c4Coords ≠ [] ∧ (2 : ℚ) ≠ 0 ∧ (3 : ℚ) ≠ 0 ∧
    (∃ i : Fin c4Coords.length,
      get_nearest_postcode c4Coords 2 3 = some (c4Coords.get i).1 ∧
      (∀ j : Fin c4Coords.length,
        havDist 2 3 (c4Coords.get i) ≤ havDist 2 3 (c4Coords.get j)) ∧
      (∀ j : Fin c4Coords.length, j < i →
        havDist 2 3 (c4Coords.get i) < havDist 2 3 (c4Coords.get j))) :=
  ⟨by decide, by norm_num, by norm_num,
    (get_nearest_postcode_characterization c4Coords 2 3).2 (by decide)
      (by norm_num) (by norm_num)⟩

/-- The suburb key a reference row contributes to the index: `some` of the
upper-cased stripped locality for a valid row (at least 4 fields, both
coordinates numeric), `none` for a skipped row. -/
def rowLocalityKey (parse_float : String → Option ℚ) (row : List String) :
    Option String :=
  match row with
  | _ :: locality :: lon_str :: lat_str :: _ =>
    match parse_float lat_str, parse_float lon_str with
    | some _, some _ => some (pyUpper (pyStrip locality))
    | _, _ => none
  | _ => none

theorem loadRow_valid_suburb_eq (parse_float : String → Option ℚ)
    (db : PostcodeDatabase) (postcode locality lon_str lat_str : String)
    (rest : List String) (la lo : ℚ)
    (hlat : parse_float lat_str = some la)
    (hlon : parse_float lon_str = some lo) :
    (loadRow parse_float db
      (postcode :: locality :: lon_str :: lat_str :: rest)).suburb_to_postcode
      = if pyUpper (pyStrip locality) ∈ db.suburb_to_postcode.map Prod.fst
        then db.suburb_to_postcode
        else db.suburb_to_postcode ++ [(pyUpper (pyStrip locality), postcode)] := by
  simp only [loadRow]
  rw [hlat, hlon]

theorem loadRow_skip_lat (parse_float : String → Option ℚ)
    (db : PostcodeDatabase) (postcode locality lon_str lat_str : String)
    (rest : List String) (hlat : parse_float lat_str = none) :
    loadRow parse_float db
      (postcode :: locality :: lon_str :: lat_str :: rest) = db := by
  simp only [loadRow]
  rw [hlat]

theorem loadRow_skip_lon (parse_float : String → Option ℚ)
    (db : PostcodeDatabase) (postcode locality lon_str lat_str : String)
    (rest : List String) (la : ℚ) (hlat : parse_float lat_str = some la)
    (hlon : parse_float lon_str = none) :
    loadRow parse_float db
      (postcode :: locality :: lon_str :: lat_str :: rest) = db := by
  simp only [loadRow]
  rw [hlat, hlon]

theorem loadRow_suburb_preserves_some (parse_float : String → Option ℚ)
    (db : PostcodeDatabase) (row : List String) (key p : String)
    (h : alookup key db.suburb_to_postcode = some p) :
    alookup key (loadRow parse_float db row).suburb_to_postcode = some p := by
  match row with
  | [] => exact h
  | [_] => exact h
  | [_, _] => exact h
  | [_, _, _] => exact h
  | postcode :: locality :: lon_str :: lat_str :: rest =>
    rcases hlat : parse_float lat_str with _ | la
    · rw [loadRow_skip_lat _ _ _ _ _ _ _ hlat]
      exact h
    · rcases hlon : parse_float lon_str with _ | lo
      · rw [loadRow_skip_lon _ _ _ _ _ _ _ _ hlat hlon]
        exact h
      · rw [loadRow_valid_suburb_eq _ _ _ _ _ _ _ la lo hlat hlon]
        by_cases hmem : pyUpper (pyStrip locality)
            ∈ db.suburb_to_postcode.map Prod.fst
        · rw [if_pos hmem]
          exact h
        · rw [if_neg hmem, alookup_append, h]
          rfl

theorem loadRow_suburb_other_key (parse_float : String → Option ℚ)
    (db : PostcodeDatabase) (row : List String) (key : String)
    (h : rowLocalityKey parse_float row ≠ some key) :
    alookup key (loadRow parse_float db row).suburb_to_postcode
      = alookup key db.suburb_to_postcode := by
  match row with
  | [] => rfl
  | [_] => rfl
  | [_, _] => rfl
  | [_, _, _] => rfl
  | postcode :: locality :: lon_str :: lat_str :: rest =>
    rcases hlat : parse_float lat_str with _ | la
    · rw [loadRow_skip_lat _ _ _ _ _ _ _ hlat]
    · rcases hlon : parse_float lon_str with _ | lo
      · rw [loadRow_skip_lon _ _ _ _ _ _ _ _ hlat hlon]
      · have hne : pyUpper (pyStrip locality) ≠ key := by
          intro hk
          exact h (by simp [rowLocalityKey, hlat, hlon, hk])
        rw [loadRow_valid_suburb_eq _ _ _ _ _ _ _ la lo hlat hlon]
        by_cases hmem : pyUpper (pyStrip locality)
            ∈ db.suburb_to_postcode.map Prod.fst
        · rw [if_pos hmem]
        · rw [if_neg hmem, alookup_append]
          rcases h1 : alookup key db.suburb_to_postcode with _ | w
          · simp [alookup, hne]
          · rfl

theorem loadRow_suburb_install (parse_float : String → Option ℚ)
    (db : PostcodeDatabase) (postcode locality lon_str lat_str : String)
    (rest : List String) (la lo : ℚ)
    (hlat : parse_float lat_str = some la)
    (hlon : parse_float lon_str = some lo)
    (hnone : alookup (pyUpper (pyStrip locality)) db.suburb_to_postcode
      = none) :
    alookup (pyUpper (pyStrip locality))
      (loadRow parse_float db
        (postcode :: locality :: lon_str :: lat_str :: rest)).suburb_to_postcode
      = some postcode := by
  have hmem : pyUpper (pyStrip locality)
      ∉ db.suburb_to_postcode.map Prod.fst :=
    (alookup_eq_none_iff _ _).1 hnone
  rw [loadRow_valid_suburb_eq _ _ _ _ _ _ _ la lo hlat hlon,
    if_neg hmem, alookup_append, hnone]
  simp [alookup]

theorem fold_loadRow_suburb_none (parse_float : String → Option ℚ)
    (rows : List (List String)) (key : String) :
    ∀ db : PostcodeDatabase,
      (∀ row ∈ rows, rowLocalityKey parse_float row ≠ some key) →
      alookup key (rows.foldl (loadRow parse_float) db).suburb_to_postcode
        = alookup key db.suburb_to_postcode := by
  induction rows with
  | nil => intro db _; rfl
  | cons row rest ih =>
    intro db hall
    rw [List.foldl_cons,
      ih _ (fun r hr => hall r (List.mem_cons_of_mem _ hr)),
      loadRow_suburb_other_key _ _ _ _ (hall row (List.mem_cons_self _ _))]

theorem fold_loadRow_suburb_some (parse_float : String → Option ℚ)
    (rows : List (List String)) (key p : String) :
    ∀ db : PostcodeDatabase,
      alookup key db.suburb_to_postcode = some p →
      alookup key (rows.foldl (loadRow parse_float) db).suburb_to_postcode
        = some p := by
  induction rows with
  | nil => intro db h; exact h
  | cons row rest ih =>
    intro db h
    rw [List.foldl_cons]
    exact ih _ (loadRow_suburb_preserves_some _ _ _ _ _ h)

/-- C8 counterexample: both rows below are valid (4 fields, numeric
coordinates under the concrete parser), and both have normalized locality
`"MELB"`.  The claim demands that looking up the second row's locality
return the second row's postcode `"9999"`, but first-occurrence-wins gives
the first row's `"3000"`. -/
theorem load_database_duplicate_locality_counterexample :
    intParseIso "-37" = some (-37) ∧ intParseIso "144" = some 144 ∧
    get_postcode_by_suburb
      (load_database intParseIso
        [["3000", "MELB", "144", "-37"], ["9999", "MELB", "144", "-37"]])
      "MELB" = some "3000" ∧
    (("3000" : String) ≠ "9999") := by
  refine ⟨rfl, rfl, by decide, by decide⟩

/-- C8 (amended): after index construction, looking up (a non-empty query
normalizing to) the upper-cased, trimmed locality of a valid reference row
returns that row's postcode, provided no earlier valid row contributes the
same normalized locality key (first occurrence in reference data wins;
later duplicates are ignored, and an empty normalized query is rejected by
the falsy-argument guard of `get_postcode_by_suburb`). -/
theorem load_database_first_valid_row_lookup
    (parse_float : String → Option ℚ) (l1 l2 : List (List String))
    (postcode locality lon_str lat_str : String) (rest : List String)
    (la lo : ℚ)
    (hlat : parse_float lat_str = some la)
    (hlon : parse_float lon_str = some lo)
    (hfirst : ∀ row ∈ l1,
      rowLocalityKey parse_float row ≠ some (pyUpper (pyStrip locality)))
    (q : String) (hq : q ≠ "")
    (hqkey : pyUpper (pyStrip q) = pyUpper (pyStrip locality)) :
    get_postcode_by_suburb
      (load_database parse_float
        (l1 ++ (postcode :: locality :: lon_str :: lat_str :: rest) :: l2))
      q = some postcode := by
  unfold load_database
  rw [List.foldl_append, List.foldl_cons]
  unfold get_postcode_by_suburb
  rw [if_neg hq, hqkey]
  apply fold_loadRow_suburb_some
  apply loadRow_suburb_install parse_float _ _ _ _ _ _ la lo hlat hlon
  rw [fold_loadRow_suburb_none parse_float l1 _ _ hfirst]
  rfl

/-- C8 witness: a two-row reference set where the second valid row has a
fresh locality; looking it up returns that row's postcode. -/
theorem load_database_first_valid_row_lookup_witness :
    intParseIso "-37" = some (-37) ∧ intParseIso "144" = some 144 ∧
    (∀ row ∈ [["3000", "MELB", "144", "-37"]],
      rowLocalityKey intParseIso row ≠ some (pyUpper (pyStrip "Carlton"))) ∧
    ("Carlton" : String) ≠ "" ∧
    pyUpper (pyStrip "Carlton") = pyUpper (pyStrip "Carlton") ∧
    get_postcode_by_suburb
      (load_database intParseIso
        [["3000", "MELB", "144", "-37"], ["3053", "Carlton", "144", "-37"]])
      "Carlton" = some "3053" :=
  ⟨rfl, rfl, by decide, by decide, rfl,
    load_database_first_valid_row_lookup intParseIso
      [["3000", "MELB", "144", "-37"]] [] "3053" "Carlton" "144" "-37" []
      (-37) 144 rfl rfl (by decide) "Carlton" (by decide) rfl⟩

/-! ## Location resolver (`src/src/geocoder.py`, class `PostcodeGeocoder`)

`resolve_postcode` tries an ordered chain of strategies, returning the
first truthy (non-`None`, non-empty) postcode and `"Unknown"` when all
fail.  The two regex helpers `_extract_suburb` / `_extract_location_parts`
and the network-backed `_reverse_geocode` (Nominatim call behind the
per-process cache, which only ever stores truthy postcodes returned by the
service) appear as function parameters: the resolver's guards re-check
truthiness of every candidate, so the claims below hold for every possible
behaviour of those helpers. -/

/-- Python truthiness filter on an optional string (`if postcode:`). -/
def truthy : Option String → Option String
  | some s => if s = "" then none else some s
  | none => none

/-- Strategy 1: extract a suburb from the location text and look it up
(`if suburb:`, Python truthiness on an optional string, then
`if postcode:`). -/
def strategySuburb (extract_suburb : String → Option String)
    (db : PostcodeDatabase) (location : String) : Option String :=
  (truthy (extract_suburb location)).bind
    (fun suburb => truthy (get_postcode_by_suburb db suburb))

/-- Strategy 2: try the municipality as a suburb name
(`if municipality:` then `if postcode:`). -/
def strategyMunicipality (db : PostcodeDatabase) (municipality : String) :
    Option String :=
  if municipality = "" then none
  else truthy (get_postcode_by_suburb db municipality)

/-- Strategy 3: try every extracted location part, first truthy lookup
wins. -/
def strategyParts (extract_location_parts : String → List String)
    (db : PostcodeDatabase) (location : String) : Option String :=
  (extract_location_parts location).findSome?
    (fun part => truthy (get_postcode_by_suburb db part))

/-- Strategies 4 and 5, guarded by
`if latitude and longitude and latitude != 0 and longitude != 0`:
reverse-geocode first, then fall back to the nearest-postcode scan. -/
noncomputable def strategyGeo (reverse_geocode : ℚ → ℚ → Option String)
    (db : PostcodeDatabase) (latitude longitude : ℚ) : Option String :=
  if latitude ≠ 0 ∧ longitude ≠ 0 then
    (truthy (reverse_geocode latitude longitude)).orElse
      (fun _ => truthy (get_nearest_postcode db.all_coords latitude longitude))
  else none

/-- `PostcodeGeocoder.resolve_postcode`: the early-return strategy chain
with the `"Unknown"` fallback (first `some` in the chain wins). -/
noncomputable def resolve_postcode (extract_suburb : String → Option String)
    (extract_location_parts : String → List String)
    (reverse_geocode : ℚ → ℚ → Option String) (db : PostcodeDatabase)
    (location : String) (latitude longitude : ℚ) (municipality : String) :
    String :=
  ((((strategySuburb extract_suburb db location).orElse
    (fun _ => strategyMunicipality db municipality)).orElse
    (fun _ => strategyParts extract_location_parts db location)).orElse
    (fun _ => strategyGeo reverse_geocode db latitude longitude)).getD
    "Unknown"

theorem truthy_ne_empty {o : Option String} {p : String}
    (h : truthy o = some p) : p ≠ "" := by
  match o with
  | none => exact absurd h (by simp [truthy])
  | some s =>
    simp only [truthy] at h
    by_cases hs : s = ""
    · rw [if_pos hs] at h
      exact absurd h (by simp)
    · rw [if_neg hs] at h
      obtain rfl : s = p := by simpa using h
      exact hs

theorem truthy_eq_some {o : Option String} {p : String}
    (h : truthy o = some p) : o = some p := by
  match o with
  | none => exact absurd h (by simp [truthy])
  | some s =>
    simp only [truthy] at h
    by_cases hs : s = ""
    · rw [if_pos hs] at h
      exact absurd h (by simp)
    · rw [if_neg hs] at h
      simpa using h

theorem orElse_some_cases {α : Type} {o : Option α} {f : Unit → Option α}
    {b : α} (h : o.orElse f = some b) : o = some b ∨ f () = some b := by
  cases o with
  | none => exact Or.inr h
  | some a => exact Or.inl h

/-- Every strategy result is a truthy value of the suburb map, the
reverse geocoder, or the nearest-postcode scan. -/
theorem strategySuburb_source {extract_suburb : String → Option String}
    {db : PostcodeDatabase} {location p : String}
    (h : strategySuburb extract_suburb db location = some p) :
    p ≠ "" ∧ ∃ s, get_postcode_by_suburb db s = some p := by
  unfold strategySuburb at h
  rcases Option.bind_eq_some.mp h with ⟨s, _, hp⟩
  exact ⟨truthy_ne_empty hp, s, truthy_eq_some hp⟩

theorem strategyMunicipality_source {db : PostcodeDatabase}
    {municipality p : String}
    (h : strategyMunicipality db municipality = some p) :
    p ≠ "" ∧ ∃ s, get_postcode_by_suburb db s = some p := by
  unfold strategyMunicipality at h
  by_cases hm : municipality = ""
  · rw [if_pos hm] at h
    exact absurd h (by simp)
  · rw [if_neg hm] at h
    exact ⟨truthy_ne_empty h, municipality, truthy_eq_some h⟩

theorem strategyParts_source {extract_location_parts : String → List String}
    {db : PostcodeDatabase} {location p : String}
    (h : strategyParts extract_location_parts db location = some p) :
    p ≠ "" ∧ ∃ s, get_postcode_by_suburb db s = some p := by
  unfold strategyParts at h
  rcases List.exists_of_findSome?_eq_some h with ⟨part, _, hp⟩
  exact ⟨truthy_ne_empty hp, part, truthy_eq_some hp⟩

theorem strategyGeo_source {reverse_geocode : ℚ → ℚ → Option String}
    {db : PostcodeDatabase} {latitude longitude : ℚ} {p : String}
    (h : strategyGeo reverse_geocode db latitude longitude = some p) :
    p ≠ "" ∧ (reverse_geocode latitude longitude = some p ∨
      get_nearest_postcode db.all_coords latitude longitude = some p) := by
  unfold strategyGeo at h
  by_cases hc : latitude ≠ 0 ∧ longitude ≠ 0
  · rw [if_pos hc] at h
    rcases orElse_some_cases h with h1 | h1
    · exact ⟨truthy_ne_empty h1, Or.inl (truthy_eq_some h1)⟩
    · exact ⟨truthy_ne_empty h1, Or.inr (truthy_eq_some h1)⟩
  · rw [if_neg hc] at h
    exact absurd h (by simp)

/-- C1: `resolve_postcode` is total and never returns the empty string:
for every location text (including the empty string — the form in which
the `None`-guarded Python helpers see blank input), every coordinate pair
(including zeros), every municipality hint, every database, and every
behaviour of the extraction and reverse-geocoding helpers, the result is a
non-empty string — a truthy postcode from one of the strategies or the
sentinel `"Unknown"`.  Totality (never raises) is expressed by the
embedding being a total function into `String`. -/
theorem resolve_postcode_nonempty (extract_suburb : String → Option String)
    (extract_location_parts : String → List String)
    (reverse_geocode : ℚ → ℚ → Option String) (db : PostcodeDatabase)
    (location : String) (latitude longitude : ℚ) (municipality : String) :
    resolve_postcode extract_suburb extract_location_parts reverse_geocode
      db location latitude longitude municipality ≠ "" := by
  unfold resolve_postcode
  rcases ho : ((((strategySuburb extract_suburb db location).orElse
      (fun _ => strategyMunicipality db municipality)).orElse
      (fun _ => strategyParts extract_location_parts db location)).orElse
      (fun _ => strategyGeo reverse_geocode db latitude longitude))
      with _ | p
  · simp
  · simp only [Option.getD_some]
    rcases orElse_some_cases ho with h1 | h4
    · rcases orElse_some_cases h1 with h2 | h3
      · rcases orElse_some_cases h2 with ha | hb
        · exact (strategySuburb_source ha).1
        · exact (strategyMunicipality_source hb).1
      · exact (strategyParts_source h3).1
    · exact (strategyGeo_source h4).1

theorem get_nearest_postcode_mem {coords : List (String × ℚ × ℚ)}
    {lat lon : ℚ} {p : String}
    (h : get_nearest_postcode coords lat lon = some p) :
    ∃ la lo, (p, la, lo) ∈ coords := by
  unfold get_nearest_postcode at h
  by_cases hg : coords = [] ∨ lat = 0 ∨ lon = 0
  · rw [if_pos hg] at h
    exact absurd h (by simp)
  · rw [if_neg hg] at h
    rcases hscan : nearestScan (havDist lat lon) coords with _ | b
    · rw [hscan] at h
      exact absurd h (by simp)
    · rw [hscan] at h
      have hb : b ∈ coords := nearestScan_mem _ _ _ hscan
      obtain ⟨q, la, lo⟩ := b
      obtain rfl : q = p := by simpa using h
      exact ⟨la, lo, hb⟩

/-- Membership of a postcode in the constructed Postcode Index: it is a
value of the suburb map or appears in the coordinate list. -/
def inIndex (db : PostcodeDatabase) (p : String) : Prop :=
  (∃ s, (s, p) ∈ db.suburb_to_postcode) ∨
    ∃ la lo, (p, la, lo) ∈ db.all_coords

/-- C2 counterexample: with an empty database and an external reverse
geocoder answering `"9999"` at coordinates `(1, 1)` — the service may
return any postcode string, including ones outside the Victorian reference
data — `resolve_postcode` returns `"9999"`, which is neither in the index
nor `"Unknown"`.  (At the evaluation point the concrete helper parameters
agree with the source helpers: `_extract_suburb("") = None` and
`_extract_location_parts("") = []`.) -/
theorem resolve_postcode_outside_index_counterexample :
    resolve_postcode (fun _ => none) (fun _ => [])
      (fun _ _ => some "9999") ⟨[], [], []⟩ "" 1 1 "" = "9999" ∧
    ¬ inIndex ⟨[], [], []⟩ "9999" ∧ ("9999" : String) ≠ "Unknown" := by
  refine ⟨?_, by simp [inIndex], by decide⟩
  rfl

/-- C2 (amended): every postcode returned by `resolve_postcode` is a value
present in the Postcode Index, or a (non-empty) postcode string returned
by the external reverse-geocoding service at the query coordinates, or the
exact sentinel `"Unknown"` — and it is never empty and never null.  The
reverse-geocoding disjunct is required: strategy 4 forwards whatever the
external service returns, which need not be in the reference data. -/
theorem resolve_postcode_sources (extract_suburb : String → Option String)
    (extract_location_parts : String → List String)
    (reverse_geocode : ℚ → ℚ → Option String) (db : PostcodeDatabase)
    (location : String) (latitude longitude : ℚ) (municipality : String) :
    resolve_postcode extract_suburb extract_location_parts reverse_geocode
        db location latitude longitude municipality = "Unknown" ∨
      inIndex db (resolve_postcode extract_suburb extract_location_parts
        reverse_geocode db location latitude longitude municipality) ∨
      reverse_geocode latitude longitude
        = some (resolve_postcode extract_suburb extract_location_parts
          reverse_geocode db location latitude longitude municipality) := by
  unfold resolve_postcode
  rcases ho : ((((strategySuburb extract_suburb db location).orElse
      (fun _ => strategyMunicipality db municipality)).orElse
      (fun _ => strategyParts extract_location_parts db location)).orElse
      (fun _ => strategyGeo reverse_geocode db latitude longitude))
      with _ | p
  · left
    rfl
  · simp only [Option.getD_some]
    have hsub : (∃ s, get_postcode_by_suburb db s = some p) →
        inIndex db p := by
      rintro ⟨s, hs⟩
      unfold get_postcode_by_suburb at hs
      by_cases h0 : s = ""
      · rw [if_pos h0] at hs
        exact absurd hs (by simp)
      · rw [if_neg h0] at hs
        exact Or.inl ⟨pyUpper (pyStrip s), mem_of_alookup_eq_some hs⟩
    rcases orElse_some_cases ho with h1 | h4
    · rcases orElse_some_cases h1 with h2 | h3
      · rcases orElse_some_cases h2 with ha | hb
        · exact Or.inr (Or.inl (hsub (strategySuburb_source ha).2))
        · exact Or.inr (Or.inl (hsub (strategyMunicipality_source hb).2))
      · exact Or.inr (Or.inl (hsub (strategyParts_source h3).2))
    · rcases (strategyGeo_source h4).2 with hg | hn
      · exact Or.inr (Or.inr hg)
      · exact Or.inr (Or.inl (Or.inr (get_nearest_postcode_mem hn)))

/-! ## Combined severity (`src/app.py`)

`get_status_order` / `get_level_order` are the literal lookup tables; the
classification ladder is the change-type decision shared by
`compare_times` (lines 495–505) and `compare_with_uploaded`.  Scores are
exact rationals; every comparison the claims involve has a margin of at
least `1/10`, far above double-precision rounding error, so the `ℚ` model
agrees with the Python float computation. -/

/-- `get_status_order` from `app.py` (lower = more severe, unknown 99). -/
def get_status_order (s : String) : Nat :=
  match s with
  | "Extreme" => 1
  | "Moderate" => 2
  | "Minor" => 3
  | "Not Yet Under Control" => 4
  | "Going" => 5
  | "Responding" => 6
  | "On Scene" => 7
  | "Request For Assistance" => 8
  | "Contained" => 9
  | "Under Control" => 10
  | "Controlled" => 11
  | "Safe" => 12
  | "Complete" => 13
  | "Not Declared" => 14
  | "Unknown" => 15
  | _ => 99

/-- `get_level_order` from `app.py` (lower = more severe, unknown 99). -/
def get_level_order (l : String) : Nat :=
  match l with
  | "Emergency Warning" => 1
  | "Watch and Act" => 2
  | "Advice" => 3
  | "Flooding" => 4
  | "Fire" => 5
  | "Rescue" => 6
  | "Accident / Rescue" => 7
  | "Community Update" => 8
  | "Building Damage" => 9
  | "Tree Down" => 10
  | "Other" => 11
  | "Incident" => 12
  | _ => 99

/-- Status order applied to a possibly-`None` value: Python's
`severity_map.get(None, 99)` returns the default. -/
def statusOrderOpt : Option String → Nat
  | some s => get_status_order s
  | none => 99

/-- Level order applied to a possibly-`None` value. -/
def levelOrderOpt : Option String → Nat
  | some l => get_level_order l
  | none => 99

/-- The combined severity score
`get_status_order(status) + get_level_order(level) * 0.1`. -/
def combinedSeverity (s l : Option String) : ℚ :=
  (statusOrderOpt s : ℚ) + (levelOrderOpt l : ℚ) * (1 / 10)

/-- The change-type decision ladder of `compare_times` (app.py 495–505):
start/end status `None` means absent on that side. -/
def classifyTimeChange (ss es sl el : Option String) : String :=
  if ss = none ∧ es ≠ none then "New Warning"
  else if ss ≠ none ∧ es = none then "Removed"
  else if ss = es ∧ sl = el then "No Change"
  else if combinedSeverity es el < combinedSeverity ss sl then "Escalated"
  else "De-escalated"

/-- C6 counterexample: the claim says that whenever the two status ranks
differ, the side with the lower status rank has the lower combined score
regardless of levels.  With status ranks `Extreme = 1 < Moderate = 2` but
levels `Incident = 12` versus `Emergency Warning = 1`, the `Extreme` side
scores `1 + 1.2 = 2.2` and the `Moderate` side `2 + 0.1 = 2.1`: the lower
status rank yields the *higher* combined score, because the ranked level
table has 12 entries (and 99 for unknown), so `levelRank * 0.1` can exceed
a status-rank gap of 1. -/
theorem combined_severity_counterexample :
    get_status_order "Extreme" < get_status_order "Moderate" ∧
    combinedSeverity (some "Moderate") (some "Emergency Warning")
      < combinedSeverity (some "Extreme") (some "Incident") := by
  constructor
  · decide
  · show (2 : ℚ) + 1 * (1 / 10) < 1 + 12 * (1 / 10)
    norm_num

/-- C6 (amended): in the combined score `statusRank + levelRank * 0.1`,
the side with the strictly lower status rank has the strictly lower
combined score *provided* the level-rank difference in the opposing
direction is less than ten times the status-rank gap (with 12 ranked level
values plus the 99 default, status does not dominate unconditionally);
and in the classification ladder, when the (status, level) pairs differ
and both sides are present, the transition to a strictly lower combined
score is classified `"Escalated"` and to a strictly higher one
`"De-escalated"`. -/
theorem combined_severity_amended (s1 l1 s2 l2 : String)
    (ss es sl el : Option String) :
    (get_status_order s1 < get_status_order s2 →
      get_level_order l1 < get_level_order l2
        + 10 * (get_status_order s2 - get_status_order s1) →
      combinedSeverity (some s1) (some l1)
        < combinedSeverity (some s2) (some l2)) ∧
    (¬(ss = es ∧ sl = el) → ss ≠ none → es ≠ none →
      (combinedSeverity es el < combinedSeverity ss sl →
        classifyTimeChange ss es sl el = "Escalated") ∧
      (combinedSeverity ss sl < combinedSeverity es el →
        classifyTimeChange ss es sl el = "De-escalated")) := by
  constructor
  · intro h1 h2
    unfold combinedSeverity statusOrderOpt levelOrderOpt
    have h1q : (get_status_order s1 : ℚ) < (get_status_order s2 : ℚ) := by
      exact_mod_cast h1
    have h2q : (get_level_order l1 : ℚ) < (get_level_order l2 : ℚ)
        + 10 * ((get_status_order s2 : ℚ) - (get_status_order s1 : ℚ)) := by
      calc (get_level_order l1 : ℚ)
          < ((get_level_order l2
              + 10 * (get_status_order s2 - get_status_order s1) : Nat) : ℚ) := by
            exact_mod_cast h2
        _ = (get_level_order l2 : ℚ)
            + 10 * ((get_status_order s2 : ℚ) - (get_status_order s1 : ℚ)) := by
            push_cast [Nat.cast_sub (le_of_lt h1)]
            ring
    linarith
  · intro hne hss hes
    constructor
    · intro hlt
      unfold classifyTimeChange
      rw [if_neg (by simp [hss]), if_neg (by simp [hes]), if_neg hne,
        if_pos hlt]
    · intro hgt
      unfold classifyTimeChange
      rw [if_neg (by simp [hss]), if_neg (by simp [hes]), if_neg hne,
        if_neg (lt_asymm hgt)]

/-- C6 witness: a status gap of 1 with a level gap of 2 in the opposing
direction (`2 < 1 + 10`) keeps status dominant, and a pure status
escalation with equal levels is classified `"Escalated"`. -/
theorem combined_severity_amended_witness :
    (get_status_order "Extreme" < get_status_order "Moderate" ∧
      get_level_order "Advice" < get_level_order "Emergency Warning"
        + 10 * (get_status_order "Moderate" - get_status_order "Extreme") ∧
      combinedSeverity (some "Extreme") (some "Advice")
        < combinedSeverity (some "Moderate") (some "Emergency Warning")) ∧
    (¬((some "Minor" : Option String) = some "Moderate"
        ∧ (some "Advice" : Option String) = some "Advice") ∧
      combinedSeverity (some "Moderate") (some "Advice")
        < combinedSeverity (some "Minor") (some "Advice") ∧
      classifyTimeChange (some "Minor") (some "Moderate") (some "Advice")
        (some "Advice") = "Escalated") :=
  ⟨⟨by decide, by decide,
    (combined_severity_amended "Extreme" "Advice" "Moderate"
      "Emergency Warning" none none none none).1 (by decide) (by decide)⟩,
   ⟨by decide,
    by show (2 : ℚ) + 3 * (1 / 10) < 3 + 3 * (1 / 10); norm_num,
    ((combined_severity_amended "Extreme" "Advice" "Moderate"
      "Emergency Warning" (some "Minor") (some "Moderate") (some "Advice")
      (some "Advice")).2 (by decide) (by decide) (by decide)).1
      (by show (2 : ℚ) + 3 * (1 / 10) < 3 + 3 * (1 / 10); norm_num)⟩⟩

/-! ## History tracker (`src/src/history_tracker.py`)

`compare_snapshots` is modelled on the two `postcode_summary` dictionaries
of a pair of existing snapshots (the part after the successful
`get_snapshot` lookups); `save_snapshot`'s per-postcode history update is
modelled as a function from postcode to entry list (`_history`, a Python
dict defaulting to `[]` for a fresh key). -/

/-- One value of a snapshot's `postcode_summary` dictionary. -/
structure PcSummary where
  status : String
  severity : String
  location : String
  category : String
  deriving DecidableEq, Repr

/-- One row of the change list built by `compare_snapshots`. -/
structure ChangeRow where
  postcode : String
  suburb : String
  status_start : String
  status_end : String
  change : String
  deriving DecidableEq, Repr

/-- The `severity_order` table of `HistoryTracker._determine_change`.
The dictionary's `"No Warning" : 6` entry is unreachable: lookups use
`start.upper()`, which is never the mixed-case key, so it falls to the
default `3`.  Note this table differs from both `StatusPriority`
(where RESPONDING aliases 1) and `get_status_order`. -/
def severity_order_dc (s : String) : Nat :=
  match pyUpper s with
  | "GOING" => 1
  | "RESPONDING" => 2
  | "CONTAINED" => 3
  | "CONTROLLED" => 4
  | "SAFE" => 5
  | "No Warning" => 6
  | _ => 3

/-- `HistoryTracker._determine_change`. -/
def determine_change (s e : String) : String :=
  if severity_order_dc e < severity_order_dc s then "INCREASED"
  else if severity_order_dc s < severity_order_dc e then "DECREASED"
  else "REMAINED"

/-- The per-key classification inside the `compare_snapshots` loop: note
that a key present on both sides with an unchanged status string produces
no record at all, and that levels/severities are never consulted. -/
def classifyPostcode (pc : String) :
    Option PcSummary → Option PcSummary → Option ChangeRow
  | none, some d => some ⟨pc, d.location, "No Warning", d.status, "NEW"⟩
  | some d, none => some ⟨pc, d.location, d.status, "No Warning", "RESOLVED"⟩
  | some d1, some d2 =>
    if d1.status ≠ d2.status then
      some ⟨pc, d2.location, d1.status, d2.status,
        determine_change d1.status d2.status⟩
    else none
  | none, none => none

/-- Insertion step of the final `sorted(changes, key=postcode)`. -/
def insertByPostcode (r : ChangeRow) : List ChangeRow → List ChangeRow
  | [] => [r]
  | x :: xs =>
    if r.postcode < x.postcode then r :: x :: xs
    else x :: insertByPostcode r xs

/-- Sort of the change list by postcode (any sort by the same key yields
the same set of rows; row membership is what the claim constrains, and
duplicate keys cannot arise from dictionary key sets). -/
def sortByPostcode : List ChangeRow → List ChangeRow
  | [] => []
  | x :: xs => insertByPostcode x (sortByPostcode xs)

/-- `HistoryTracker.compare_snapshots` on the `postcode_summary` maps of
two existing snapshots. -/
def compare_snapshots (start_pcs end_pcs : List (String × PcSummary)) :
    List ChangeRow :=
  let all_postcodes :=
    (start_pcs.map Prod.fst ++ end_pcs.map Prod.fst).dedup
  sortByPostcode (all_postcodes.filterMap
    (fun pc => classifyPostcode pc (alookup pc start_pcs)
      (alookup pc end_pcs)))

theorem mem_insertByPostcode {a r : ChangeRow} {l : List ChangeRow} :
    a ∈ insertByPostcode r l ↔ a = r ∨ a ∈ l := by
  induction l with
  | nil => simp [insertByPostcode]
  | cons x xs ih =>
    by_cases h : r.postcode < x.postcode
    · simp [insertByPostcode, h]
    · simp [insertByPostcode, h, ih]
      tauto

theorem mem_sortByPostcode {a : ChangeRow} {l : List ChangeRow} :
    a ∈ sortByPostcode l ↔ a ∈ l := by
  induction l with
  | nil => simp [sortByPostcode]
  | cons x xs ih =>
    simp [sortByPostcode, mem_insertByPostcode, ih]

theorem classifyPostcode_postcode {pc : String}
    {sd ed : Option PcSummary} {r : ChangeRow}
    (h : classifyPostcode pc sd ed = some r) : r.postcode = pc := by
  match sd, ed with
  | none, some d =>
    obtain rfl : (⟨pc, d.location, "No Warning", d.status, "NEW"⟩ : ChangeRow)
        = r := by simpa [classifyPostcode] using h
    rfl
  | some d, none =>
    obtain rfl : (⟨pc, d.location, d.status, "No Warning", "RESOLVED"⟩
        : ChangeRow) = r := by simpa [classifyPostcode] using h
    rfl
  | some d1, some d2 =>
    simp only [classifyPostcode] at h
    by_cases hs : d1.status ≠ d2.status
    · rw [if_pos hs] at h
      obtain rfl := Option.some_inj.mp h
      rfl
    · rw [if_neg hs] at h
      exact absurd h (by simp)
  | none, none => exact absurd h (by simp [classifyPostcode])

theorem mem_compare_snapshots {start_pcs end_pcs : List (String × PcSummary)}
    {r : ChangeRow} :
    r ∈ compare_snapshots start_pcs end_pcs ↔
      ∃ pc ∈ (start_pcs.map Prod.fst ++ end_pcs.map Prod.fst).dedup,
        classifyPostcode pc (alookup pc start_pcs) (alookup pc end_pcs)
          = some r := by
  unfold compare_snapshots
  rw [mem_sortByPostcode, List.mem_filterMap]

/-- C5 counterexample: the key `"3000"` is present in both snapshot
summaries with identical status and severity, yet `compare_snapshots`
produces *no* record for it (the claim demands an `Unchanged`
classification for every key present in either side). -/
theorem compare_snapshots_unchanged_counterexample :
    compare_snapshots
        [("3000", ⟨"Going", "Advice", "Somewhere", "Fire"⟩)]
        [("3000", ⟨"Going", "Advice", "Somewhere", "Fire"⟩)] = [] ∧
    (("3000", (⟨"Going", "Advice", "Somewhere", "Fire"⟩ : PcSummary)))
      ∈ [("3000", (⟨"Going", "Advice", "Somewhere", "Fire"⟩ : PcSummary))] := by
  exact ⟨by decide, by simp⟩

/-- C5 (amended): for each postcode key, `compare_snapshots` emits a `NEW`
record when the key is absent at start and present at end, a `RESOLVED`
record when present at start and absent at end, and — only when the key is
present on both sides *and the status strings differ* — a record
classified by the status-only table of `_determine_change`
(`INCREASED`/`DECREASED`/`REMAINED`); a key with an unchanged status
produces no record at all (levels/severities are never compared), and the
combined-severity comparison of §4.4 is not used. -/
theorem compare_snapshots_characterization
    (start_pcs end_pcs : List (String × PcSummary)) (pc : String) :
    (∀ d, alookup pc start_pcs = none → alookup pc end_pcs = some d →
      (⟨pc, d.location, "No Warning", d.status, "NEW"⟩ : ChangeRow)
        ∈ compare_snapshots start_pcs end_pcs) ∧
    (∀ d, alookup pc start_pcs = some d → alookup pc end_pcs = none →
      (⟨pc, d.location, d.status, "No Warning", "RESOLVED"⟩ : ChangeRow)
        ∈ compare_snapshots start_pcs end_pcs) ∧
    (∀ d1 d2, alookup pc start_pcs = some d1 →
      alookup pc end_pcs = some d2 → d1.status ≠ d2.status →
      (⟨pc, d2.location, d1.status, d2.status,
        determine_change d1.status d2.status⟩ : ChangeRow)
        ∈ compare_snapshots start_pcs end_pcs) ∧
    (∀ d1 d2, alookup pc start_pcs = some d1 →
      alookup pc end_pcs = some d2 → d1.status = d2.status →
      ∀ r ∈ compare_snapshots start_pcs end_pcs, r.postcode ≠ pc) ∧
    (alookup pc start_pcs = none → alookup pc end_pcs = none →
      ∀ r ∈ compare_snapshots start_pcs end_pcs, r.postcode ≠ pc) := by
  have hmemkey : ∀ {l : List (String × PcSummary)} {d : PcSummary},
      alookup pc l = some d → pc ∈ l.map Prod.fst := by
    intro l d hd
    exact List.mem_map.mpr ⟨(pc, d), mem_of_alookup_eq_some hd, rfl⟩
  refine ⟨?_, ?_, ?_, ?_, ?_⟩
  · intro d hs he
    rw [mem_compare_snapshots]
    refine ⟨pc, List.mem_dedup.mpr (List.mem_append.mpr
      (Or.inr (hmemkey he))), ?_⟩
    rw [hs, he]
    rfl
  · intro d hs he
    rw [mem_compare_snapshots]
    refine ⟨pc, List.mem_dedup.mpr (List.mem_append.mpr
      (Or.inl (hmemkey hs))), ?_⟩
    rw [hs, he]
    rfl
  · intro d1 d2 hs he hne
    rw [mem_compare_snapshots]
    refine ⟨pc, List.mem_dedup.mpr (List.mem_append.mpr
      (Or.inl (hmemkey hs))), ?_⟩
    rw [hs, he]
    simp only [classifyPostcode]
    rw [if_pos hne]
  · intro d1 d2 hs he heq r hr hpc
    rcases mem_compare_snapshots.mp hr with ⟨pc', _, hclass⟩
    have : pc' = pc := (classifyPostcode_postcode hclass).symm.trans hpc
    subst this
    rw [hs, he] at hclass
    simp only [classifyPostcode] at hclass
    rw [if_neg (by simpa using heq)] at hclass
    exact absurd hclass (by simp)
  · intro hs he r hr hpc
    rcases mem_compare_snapshots.mp hr with ⟨pc', _, hclass⟩
    have : pc' = pc := (classifyPostcode_postcode hclass).symm.trans hpc
    subst this
    rw [hs, he] at hclass
    exact absurd hclass (by simp [classifyPostcode])

/-- C5 witness: a key absent at start and present at end yields a `NEW`
record in the comparison output. -/
theorem compare_snapshots_characterization_witness :
    alookup "3000" ([] : List (String × PcSummary)) = none ∧
    alookup "3000"
      [("3000", (⟨"Going", "Advice", "Somewhere", "Fire"⟩ : PcSummary))]
      = some ⟨"Going", "Advice", "Somewhere", "Fire"⟩ ∧
    (⟨"3000", "Somewhere", "No Warning", "Going", "NEW"⟩ : ChangeRow)
      ∈ compare_snapshots []
        [("3000", ⟨"Going", "Advice", "Somewhere", "Fire"⟩)] :=
  ⟨rfl, rfl,
    (compare_snapshots_characterization []
      [("3000", ⟨"Going", "Advice", "Somewhere", "Fire"⟩)] "3000").1
      ⟨"Going", "Advice", "Somewhere", "Fire"⟩ rfl rfl⟩

/-- One warning record as consumed by `save_snapshot` (the fields read
from each warning dict, with the code's `warning.get(...)` defaults
already applied by the caller). -/
structure WarningRec where
  postcode : String
  status : String
  severity : String
  location : String
  category : String
  wtype : String
  deriving DecidableEq, Repr

/-- One per-postcode history entry written by `save_snapshot`. -/
structure HistoryEntry where
  timestamp : String
  status : String
  severity : String
  location : String
  category : String
  wtype : String
  deriving DecidableEq, Repr

def mkHistoryEntry (ts : String) (w : WarningRec) : HistoryEntry :=
  { timestamp := ts, status := w.status, severity := w.severity
    location := w.location, category := w.category, wtype := w.wtype }

/-- The per-warning history update of `save_snapshot`: append the new
entry only when the key's history is non-empty and its last entry differs
in status or severity (an empty history always receives the entry), then
keep only the last 50 entries. -/
def addToHistory (ts : String) (h : List HistoryEntry) (w : WarningRec) :
    List HistoryEntry :=
  let entry := mkHistoryEntry ts w
  let h2 :=
    if hne : h ≠ [] then
      if (h.getLast hne).status ≠ w.status
          ∨ (h.getLast hne).severity ≠ w.severity then h ++ [entry]
      else h
    else h ++ [entry]
  if 50 < h2.length then h2.drop (h2.length - 50) else h2

/-- The `_history` side of `HistoryTracker.save_snapshot`: fold the
per-warning update over the batch (`ts` is the snapshot timestamp). -/
def save_snapshot_history (ts : String)
    (hist : String → List HistoryEntry) (warnings : List WarningRec) :
    String → List HistoryEntry :=
  warnings.foldl
    (fun h w => fun pc =>
      if pc = w.postcode then addToHistory ts (h w.postcode) w else h pc)
    hist

theorem save_snapshot_history_untouched (ts : String)
    (warnings : List WarningRec) (pc : String)
    (hpc : ∀ w ∈ warnings, w.postcode ≠ pc) :
    ∀ hist : String → List HistoryEntry,
      save_snapshot_history ts hist warnings pc = hist pc := by
  induction warnings with
  | nil => intro hist; rfl
  | cons v vs ih =>
    intro hist
    unfold save_snapshot_history
    rw [List.foldl_cons]
    have step := ih (fun w hw => hpc w (List.mem_cons_of_mem _ hw))
      (fun pc2 => if pc2 = v.postcode then addToHistory ts (hist v.postcode) v
        else hist pc2)
    unfold save_snapshot_history at step
    rw [step]
    have hne : pc ≠ v.postcode := fun h =>
      hpc v (List.mem_cons_self _ _) h.symm
    simp [hne]

theorem save_snapshot_history_at (ts : String) (warnings : List WarningRec)
    (hnodup : (warnings.map WarningRec.postcode).Nodup) :
    ∀ (w : WarningRec), w ∈ warnings →
      ∀ hist : String → List HistoryEntry,
        save_snapshot_history ts hist warnings w.postcode
          = addToHistory ts (hist w.postcode) w := by
  induction warnings with
  | nil =>
    intro w hw
    exact absurd hw (by simp)
  | cons v vs ih =>
    rw [List.map_cons, List.nodup_cons] at hnodup
    intro w hw hist
    rcases List.mem_cons.mp hw with rfl | hw2
    · unfold save_snapshot_history
      rw [List.foldl_cons]
      have huntouched : ∀ u ∈ vs, u.postcode ≠ w.postcode := by
        intro u hu he
        exact hnodup.1 (he ▸ List.mem_map.mpr ⟨u, hu, rfl⟩)
      have step := save_snapshot_history_untouched ts vs w.postcode huntouched
        (fun pc2 => if pc2 = w.postcode then addToHistory ts (hist w.postcode) w
          else hist pc2)
      unfold save_snapshot_history at step
      rw [step]
      simp
    · unfold save_snapshot_history
      rw [List.foldl_cons]
      have hne : w.postcode ≠ v.postcode := by
        intro he
        exact hnodup.1 (he ▸ List.mem_map.mpr ⟨w, hw2, rfl⟩)
      have step := ih hnodup.2 w hw2
        (fun pc2 => if pc2 = v.postcode then addToHistory ts (hist v.postcode) v
          else hist pc2)
      unfold save_snapshot_history at step
      rw [step]
      simp [hne]

theorem trim50_length {α : Type} (l : List α) :
    (if 50 < l.length then l.drop (l.length - 50) else l).length ≤ 50 := by
  by_cases h : 50 < l.length
  · rw [if_pos h, List.length_drop]
    omega
  · rw [if_neg h]
    omega

theorem addToHistory_length_le50 (ts : String) (h : List HistoryEntry)
    (w : WarningRec) : (addToHistory ts h w).length ≤ 50 := by
  simp only [addToHistory]
  exact trim50_length _

theorem getLast?_drop_of_lt {α : Type} (l : List α) (n : Nat)
    (hn : n < l.length) : (l.drop n).getLast? = l.getLast? := by
  have hne : l.drop n ≠ [] := by
    intro h
    have hlen : (l.drop n).length = l.length - n := by simp
    rw [h] at hlen
    simp at hlen
    omega
  conv_rhs => rw [← List.take_append_drop n l]
  rw [List.getLast?_append_of_ne_nil _ hne]

theorem addToHistory_noop (ts : String) (h : List HistoryEntry)
    (w : WarningRec) (hne : h ≠ [])
    (hs : (h.getLast hne).status = w.status)
    (hv : (h.getLast hne).severity = w.severity)
    (hlen : h.length ≤ 50) : addToHistory ts h w = h := by
  simp only [addToHistory]
  rw [dif_pos hne]
  have hcond : ¬((h.getLast hne).status ≠ w.status
      ∨ (h.getLast hne).severity ≠ w.severity) := by
    push_neg
    exact ⟨hs, hv⟩
  rw [if_neg hcond]
  rw [if_neg (show ¬ 50 < h.length by omega)]

theorem addToHistory_last (ts : String) (h : List HistoryEntry)
    (w : WarningRec) :
    ∃ last, (addToHistory ts h w).getLast? = some last ∧
      last.status = w.status ∧ last.severity = w.severity := by
  simp only [addToHistory]
  by_cases hne : h ≠ []
  · rw [dif_pos hne]
    by_cases hdiff : (h.getLast hne).status ≠ w.status
        ∨ (h.getLast hne).severity ≠ w.severity
    · rw [if_pos hdiff]
      by_cases htrim : 50 < (h ++ [mkHistoryEntry ts w]).length
      · rw [if_pos htrim]
        refine ⟨mkHistoryEntry ts w, ?_, rfl, rfl⟩
        rw [getLast?_drop_of_lt _ _ (by omega)]
        exact List.getLast?_concat h
      · rw [if_neg htrim]
        exact ⟨mkHistoryEntry ts w, List.getLast?_concat h, rfl, rfl⟩
    · rw [if_neg hdiff]
      push_neg at hdiff
      have hlast : h.getLast? = some (h.getLast hne) :=
        List.getLast?_eq_getLast h hne
      by_cases htrim : 50 < h.length
      · rw [if_pos htrim]
        refine ⟨h.getLast hne, ?_, hdiff.1, hdiff.2⟩
        rw [getLast?_drop_of_lt _ _ (by omega)]
        exact hlast
      · rw [if_neg htrim]
        exact ⟨h.getLast hne, hlast, hdiff.1, hdiff.2⟩
  · rw [dif_neg hne]
    push_neg at hne
    subst hne
    rw [if_neg (by simp)]
    exact ⟨mkHistoryEntry ts w, by simp, rfl, rfl⟩

theorem addToHistory_second_noop (ts1 ts2 : String) (h : List HistoryEntry)
    (w : WarningRec) :
    addToHistory ts2 (addToHistory ts1 h w) w = addToHistory ts1 h w := by
  obtain ⟨last, hl, hs, hv⟩ := addToHistory_last ts1 h w
  have hne : addToHistory ts1 h w ≠ [] := by
    intro he
    rw [he] at hl
    simp at hl
  have hgl : (addToHistory ts1 h w).getLast hne = last := by
    have := List.getLast?_eq_getLast (addToHistory ts1 h w) hne
    rw [hl] at this
    exact (Option.some_inj.mp this).symm
  exact addToHistory_noop ts2 _ w hne (by rw [hgl]; exact hs)
    (by rw [hgl]; exact hv) (addToHistory_length_le50 ts1 h w)

theorem addToHistory_nil (ts : String) (w : WarningRec) :
    addToHistory ts [] w = [mkHistoryEntry ts w] := rfl

/-- C7: with each postcode appearing once in the batch, (a) saving the
same batch a second time leaves every key's per-postcode history exactly
as it was after the first save (so two consecutive unchanged snapshots
append exactly one entry, not two); (b) a save whose status and severity
match the key's last recorded entry appends nothing (for keys within the
50-entry cap, which the save itself always re-establishes); (c) starting
from an empty history, two consecutive saves leave exactly the one entry
recorded by the first save. -/
theorem save_snapshot_history_dedup (hist : String → List HistoryEntry)
    (warnings : List WarningRec) (ts1 ts2 : String)
    (hnodup : (warnings.map WarningRec.postcode).Nodup) :
    (∀ pc, save_snapshot_history ts2
        (save_snapshot_history ts1 hist warnings) warnings pc
      = save_snapshot_history ts1 hist warnings pc) ∧
    (∀ w ∈ warnings, ∀ hne : hist w.postcode ≠ [],
      ((hist w.postcode).getLast hne).status = w.status →
      ((hist w.postcode).getLast hne).severity = w.severity →
      (hist w.postcode).length ≤ 50 →
      save_snapshot_history ts1 hist warnings w.postcode = hist w.postcode) ∧
    (∀ w ∈ warnings, hist w.postcode = [] →
      save_snapshot_history ts2 (save_snapshot_history ts1 hist warnings)
        warnings w.postcode = [mkHistoryEntry ts1 w]) := by
  refine ⟨?_, ?_, ?_⟩
  · intro pc
    by_cases hpc : ∃ w ∈ warnings, w.postcode = pc
    · obtain ⟨w, hw, rfl⟩ := hpc
      rw [save_snapshot_history_at ts2 warnings hnodup w hw,
        save_snapshot_history_at ts1 warnings hnodup w hw,
        addToHistory_second_noop]
    · push_neg at hpc
      rw [save_snapshot_history_untouched ts2 warnings pc hpc,
        save_snapshot_history_untouched ts1 warnings pc hpc]
  · intro w hw hne hs hv hlen
    rw [save_snapshot_history_at ts1 warnings hnodup w hw]
    exact addToHistory_noop ts1 _ w hne hs hv hlen
  · intro w hw hempty
    rw [save_snapshot_history_at ts2 warnings hnodup w hw,
      save_snapshot_history_at ts1 warnings hnodup w hw, hempty,
      addToHistory_second_noop ts1 ts2 [] w, addToHistory_nil]

/-- Sample warning for the `save_snapshot` witness. -/
def c7Warning : WarningRec :=
  { postcode := "3000", status := "Going", severity := "Advice"
    location := "Somewhere", category := "Fire", wtype := "incident" }

/-- C7 witness: saving the one-warning batch twice from an empty history
leaves exactly one entry for postcode `"3000"`, and the two saves agree on
every key. -/
theorem save_snapshot_history_dedup_witness :
    (([c7Warning].map WarningRec.postcode)).Nodup ∧
    (fun _ => ([] : List HistoryEntry)) c7Warning.postcode = [] ∧
    save_snapshot_history "t2"
      (save_snapshot_history "t1" (fun _ => []) [c7Warning]) [c7Warning]
      c7Warning.postcode = [mkHistoryEntry "t1" c7Warning] ∧
    save_snapshot_history "t2"
      (save_snapshot_history "t1" (fun _ => []) [c7Warning]) [c7Warning]
      "3000"
      = save_snapshot_history "t1" (fun _ => []) [c7Warning] "3000" :=
  ⟨by decide, rfl,
    (save_snapshot_history_dedup (fun _ => []) [c7Warning] "t1" "t2"
      (by decide)).2.2 c7Warning (by simp) rfl,
    (save_snapshot_history_dedup (fun _ => []) [c7Warning] "t1" "t2"
      (by decide)).1 "3000"⟩

end VicEmergency
